import Mathlib

/-!
# Verification of the `Memcached` facade (src/unnamed/part_000) and `Now` (src/now.ts)

The repository is a typed convenience facade over an external memcache
protocol client.  We embed the facade shallowly:

* values stored in the cache are modelled by `Value` (strings or integers,
  the cases of `StoreParams` that the truthiness questions hinge on);
* the external client's observable behaviour is modelled from the spec as a
  key-value association list `CacheState` (`cacheGet`, `cacheSet`,
  `cacheDelete`);
* every facade method is embedded as a function that returns its result,
  the new cache state where the method mutates the cache, and the trace of
  `ClientCmd` commands it issues to the underlying client, mirroring the
  source line by line (JS truthiness becomes `Value.truthy`, the nullish
  coalescing `??` becomes `Option.getD`, optional parameters become
  `Option` arguments, object spread over option records becomes explicit
  merging).
-/

/-- A cached value: the repository's `StoreParams` restricted to the strings
and numbers the claims are about (buffers and records are always truthy and
play no role in any claim). -/
inductive Value where
  | str (s : String)
  | num (n : Int)
deriving DecidableEq, Repr

/-- JS truthiness of a `Value`: the empty string and numeric zero are falsy,
everything else is truthy. -/
def Value.truthy : Value → Bool
  | .str s => s ≠ ""
  | .num n => n ≠ 0

/-- JS truthiness of a possibly-`undefined` value (`undefined` is falsy). -/
def truthyOpt : Option Value → Bool
  | none => false
  | some v => v.truthy

/-- The key-value store held by the memcached server, as observed through the
external client. -/
abbrev CacheState := List (String × Value)

/-- Modelled from the spec: the external client's `get` resolves to the
retrieval record of the key (the facade keeps only its `value` field), or
`undefined` when the key is absent. -/
def cacheGet (st : CacheState) (k : String) : Option Value :=
  st.lookup k

/-- Modelled from the spec: the external client's `set` unconditionally
stores the value under the key. -/
def cacheSet (st : CacheState) (k : String) (v : Value) : CacheState :=
  (k, v) :: st.filter (fun p => p.1 != k)

/-- Modelled from the spec: the external client's `delete` removes the key. -/
def cacheDelete (st : CacheState) (k : String) : CacheState :=
  st.filter (fun p => p.1 != k)

/-- `CommonCommandOption` of the source: an optional `noreply` flag; `none`
models an absent property. -/
structure CommonCommandOption where
  noreply : Option Bool := none
deriving DecidableEq, Repr

/-- `StoreCommandOptions` of the source. -/
structure StoreCommandOptions where
  noreply : Option Bool := none
  ignoreNotStored : Option Bool := none
  compress : Option Bool := none
deriving DecidableEq, Repr

/-- The wire command a facade method hands to the external client, carrying
exactly the arguments the source passes through. -/
inductive ClientCmd where
  | get (key : String)
  | gets (keys : List String)
  | set (key : String) (value : Value) (lifetime : Int) (noreply : Bool)
  | add (key : String) (value : Value) (lifetime : Int) (noreply : Bool)
  | replace (key : String) (value : Value) (lifetime : Int) (noreply : Bool)
  | append (key : String) (value : Value) (lifetime : Int) (noreply : Bool)
  | prepend (key : String) (value : Value) (lifetime : Int) (noreply : Bool)
  | delete (key : String) (noreply : Bool)
  | incr (key : String) (delta : Int) (lifetime : Int) (noreply : Bool)
  | decr (key : String) (delta : Int) (lifetime : Int) (noreply : Bool)
  | touch (key : String) (lifetime : Int) (noreply : Bool)
  | raw (command : String) (noreply : Bool)
deriving DecidableEq, Repr

/-- A caller-side key: `string | string[] | number` of the source (`symbol`
is omitted; it has no literal inhabitants relevant to the claims). -/
inductive MKey where
  | str (s : String)
  | arr (parts : List String)
  | num (n : Int)
deriving DecidableEq, Repr

/-- The `Memcached` facade instance: the constructor's per-key default
lifetime table and the optional scope, exactly the fields the source class
stores (`client` is the external dependency). -/
structure Memcached where
  lifeTime : List (String × Int) := []
  scope : Option String := none
deriving DecidableEq, Repr

/-- `resolveKey` of the source: arrays are joined with "/", any other key is
converted to its string form.  As in the source, no field of the instance
(in particular not `scope`) is consulted. -/
def Memcached.resolveKey (_m : Memcached) : MKey → String
  | .arr parts => String.intercalate "/" parts
  | .str s => s
  | .num n => toString n

/-- The default-parameter expression `this.lifeTime[this.resolveKey(key)] ?? 0`
shared by every store-like method. -/
def Memcached.defaultLifetime (m : Memcached) (key : MKey) : Int :=
  (m.lifeTime.lookup (m.resolveKey key)).getD 0

/-- The lifetime actually used: the caller's argument when supplied,
otherwise the default-parameter expression. -/
def Memcached.lifetimeArg (m : Memcached) (key : MKey) (lifetime : Option Int) : Int :=
  lifetime.getD (m.defaultLifetime key)

/-- The `noreply` flag the external client sees from an optional
`StoreCommandOptions` argument: absent options or an absent property mean
`false`. -/
def optNoreply : Option StoreCommandOptions → Bool
  | none => false
  | some o => o.noreply.getD false

/-- The `noreply` flag the external client sees from an optional
`CommonCommandOption` argument. -/
def commonNoreply : Option CommonCommandOption → Bool
  | none => false
  | some o => o.noreply.getD false

/-- `get`: `client.get(resolveKey(key)).then(res => res?.value)`.  Returns
the retrieved value (or `none`) and the issued command. -/
def Memcached.get (m : Memcached) (st : CacheState) (key : MKey) :
    Option Value × List ClientCmd :=
  (cacheGet st (m.resolveKey key), [ClientCmd.get (m.resolveKey key)])

/-- `put`: `client.set(resolveKey(key), value, { lifetime, ...options })`.
Returns the new cache state and the issued command. -/
def Memcached.put (m : Memcached) (st : CacheState) (key : MKey) (value : Value)
    (lifetime : Option Int) (options : Option StoreCommandOptions) :
    CacheState × List ClientCmd :=
  (cacheSet st (m.resolveKey key) value,
   [ClientCmd.set (m.resolveKey key) value (m.lifetimeArg key lifetime)
      (optNoreply options)])

/-- `forever`: `client.set(resolveKey(key), value, { lifetime: 0, ...options })`
(the options record has no `lifetime` field, so 0 always stands). -/
def Memcached.forever (m : Memcached) (st : CacheState) (key : MKey) (value : Value)
    (options : Option StoreCommandOptions) :
    CacheState × List ClientCmd :=
  (cacheSet st (m.resolveKey key) value,
   [ClientCmd.set (m.resolveKey key) value 0 (optNoreply options)])

/-- `delete`: `client.delete(resolveKey(key), options)`. -/
def Memcached.delete (m : Memcached) (st : CacheState) (key : MKey)
    (options : Option StoreCommandOptions) :
    CacheState × List ClientCmd :=
  (cacheDelete st (m.resolveKey key),
   [ClientCmd.delete (m.resolveKey key) (optNoreply options)])

/-- `forget`: delegates to `delete`. -/
def Memcached.forget (m : Memcached) (st : CacheState) (key : MKey)
    (options : Option StoreCommandOptions) :
    CacheState × List ClientCmd :=
  m.delete st key options

/-- `add`: `client.add(resolveKey(key), value, { lifetime, ...options })`.
Only the issued command is modelled (the conditional store happens inside
the external client). -/
def Memcached.add (m : Memcached) (key : MKey) (value : Value)
    (lifetime : Option Int) (options : Option StoreCommandOptions) :
    List ClientCmd :=
  [ClientCmd.add (m.resolveKey key) value (m.lifetimeArg key lifetime)
     (optNoreply options)]

/-- `increment`: `client.incr(resolveKey(key), value, { lifetime, ...options })`
with `value` defaulting to 1. -/
def Memcached.increment (m : Memcached) (key : MKey) (delta : Option Int)
    (lifetime : Option Int) (options : Option StoreCommandOptions) :
    List ClientCmd :=
  [ClientCmd.incr (m.resolveKey key) (delta.getD 1) (m.lifetimeArg key lifetime)
     (optNoreply options)]

/-- `decrement`: `client.decr(resolveKey(key), value, { lifetime, ...options })`
with `value` defaulting to 1. -/
def Memcached.decrement (m : Memcached) (key : MKey) (delta : Option Int)
    (lifetime : Option Int) (options : Option StoreCommandOptions) :
    List ClientCmd :=
  [ClientCmd.decr (m.resolveKey key) (delta.getD 1) (m.lifetimeArg key lifetime)
     (optNoreply options)]

/-- `replace`: `client.replace(resolveKey(key), value, { lifetime, ...options })`. -/
def Memcached.replace (m : Memcached) (key : MKey) (value : Value)
    (lifetime : Option Int) (options : Option StoreCommandOptions) :
    List ClientCmd :=
  [ClientCmd.replace (m.resolveKey key) value (m.lifetimeArg key lifetime)
     (optNoreply options)]

/-- `append`: `client.append(resolveKey(key), value, { lifetime, ...options })`. -/
def Memcached.append (m : Memcached) (key : MKey) (value : Value)
    (lifetime : Option Int) (options : Option StoreCommandOptions) :
    List ClientCmd :=
  [ClientCmd.append (m.resolveKey key) value (m.lifetimeArg key lifetime)
     (optNoreply options)]

/-- `prepend`: `client.prepend(resolveKey(key), value, { lifetime, ...options })`. -/
def Memcached.prepend (m : Memcached) (key : MKey) (value : Value)
    (lifetime : Option Int) (options : Option StoreCommandOptions) :
    List ClientCmd :=
  [ClientCmd.prepend (m.resolveKey key) value (m.lifetimeArg key lifetime)
     (optNoreply options)]

/-- The options record `{ noreply: true, ...options }` that `remember` hands
to `put`: object spread keeps `noreply: true` only when the caller's options
do not carry their own `noreply` property. -/
def rememberStoreOptions : Option StoreCommandOptions → StoreCommandOptions
  | none => { noreply := some true }
  | some o => { o with noreply := some (o.noreply.getD true) }

/-- The `noreply` flag the store issued by `remember` ends up with. -/
def rememberNoreply : Option StoreCommandOptions → Bool
  | none => true
  | some o => o.noreply.getD true

/-- `remember`: `const inCache = await this.get(key); if (inCache) return
inCache; const value = await fnGet(); await this.put(key, value, lifetime,
{ noreply: true, ...options }); return value`.  The falsy-valued and absent
cases both fall through to the compute-and-store path, as in the source. -/
def Memcached.remember (m : Memcached) (st : CacheState) (key : MKey)
    (lifetime : Option Int) (fnGet : Unit → Value)
    (options : Option StoreCommandOptions) :
    Value × CacheState × List ClientCmd :=
  match (m.get st key).1 with
  | some v =>
    if v.truthy then (v, st, (m.get st key).2)
    else
      let value := fnGet ()
      let p := m.put st key value lifetime (some (rememberStoreOptions options))
      (value, p.1, (m.get st key).2 ++ p.2)
  | none =>
    let value := fnGet ()
    let p := m.put st key value lifetime (some (rememberStoreOptions options))
    (value, p.1, (m.get st key).2 ++ p.2)

/-- `rememberForever`: `this.remember(key, 0, fnGet, options)`. -/
def Memcached.rememberForever (m : Memcached) (st : CacheState) (key : MKey)
    (fnGet : Unit → Value) (options : Option StoreCommandOptions) :
    Value × CacheState × List ClientCmd :=
  m.remember st key (some 0) fnGet options

/-- `pull`: `const val = await this.get(key); if (val) { await
this.delete(key) } return val ?? def`. -/
def Memcached.pull (m : Memcached) (st : CacheState) (key : MKey)
    (deflt : Option Value) :
    Option Value × CacheState × List ClientCmd :=
  let g := m.get st key
  let ret := match g.1 with
    | some v => some v
    | none => deflt
  if truthyOpt g.1 then
    let d := m.delete st key none
    (ret, d.1, g.2 ++ d.2)
  else
    (ret, st, g.2)

/-- JS template interpolation `${x}` of a possibly-`undefined` string: an
absent value prints as the literal text "undefined". -/
def jsInterpolate : Option String → String
  | none => "undefined"
  | some s => s

/-- `flush`: `client.cmd(`flush_all ${delay}`, { noreply: noReply })`. -/
def Memcached.flush (_m : Memcached) (delay : Option String) (noReply : Option Bool) :
    List ClientCmd :=
  [ClientCmd.raw ("flush_all " ++ jsInterpolate delay) (noReply.getD false)]

/-- `incLifetime`: `client.touch(resolveKey(key), lifetime, options)`. -/
def Memcached.incLifetime (m : Memcached) (key : MKey) (lifetime : Option Int)
    (options : Option CommonCommandOption) :
    List ClientCmd :=
  [ClientCmd.touch (m.resolveKey key) (m.lifetimeArg key lifetime)
     (commonNoreply options)]

/-- `cmd`: `client.cmd(command, options)`. -/
def Memcached.cmd (_m : Memcached) (command : String)
    (options : Option CommonCommandOption) :
    List ClientCmd :=
  [ClientCmd.raw command (commonNoreply options)]

/-- `gets`: `client.gets(keys).then(data => keys.map(key => data[key]?.value))`.
`resp` models the server's `VALUE` blocks (spec: present keys only, in
arbitrary order); indexing the keyed response object is association-list
lookup.  Note the source passes `keys` to the client unresolved. -/
def Memcached.gets (_m : Memcached) (keys : List String)
    (resp : List (String × Value)) :
    List (Option Value) × List ClientCmd :=
  (keys.map (fun k => resp.lookup k), [ClientCmd.gets keys])

/-- `Now` of src/now.ts: wraps a timestamp in milliseconds.  JS numbers are
modelled as rationals. -/
structure Now where
  nowMs : ℚ
deriving DecidableEq, Repr

/-- `addSeconds`: `this.now.setTime(this.now.getTime() + seconds * 1_000);
return this.now.getTime() / 1_000` — returns the new time in seconds
together with the mutated instance. -/
def Now.addSeconds (t : Now) (seconds : ℚ) : ℚ × Now :=
  let t2 : Now := ⟨t.nowMs + seconds * 1000⟩
  (t2.nowMs / 1000, t2)

/-- `addMinutes`: `this.addSeconds(minutes * 60)`. -/
def Now.addMinutes (t : Now) (minutes : ℚ) : ℚ × Now :=
  t.addSeconds (minutes * 60)

/-- `addHours`: `this.addMinutes(hours * 60)`. -/
def Now.addHours (t : Now) (hours : ℚ) : ℚ × Now :=
  t.addMinutes (hours * 60)

/-- `addDays`: `this.addHours(days * 24)`. -/
def Now.addDays (t : Now) (days : ℚ) : ℚ × Now :=
  t.addHours (days * 24)

/-! ## Helper lemmas -/

theorem optNoreply_rememberStoreOptions (opts : Option StoreCommandOptions) :
    optNoreply (some (rememberStoreOptions opts)) = rememberNoreply opts := by
  cases opts <;> rfl

theorem remember_truthy_hit_eq (m : Memcached) (st : CacheState) (key : MKey)
    (lt : Option Int) (f : Unit → Value) (opts : Option StoreCommandOptions)
    (v : Value) (hv : cacheGet st (m.resolveKey key) = some v)
    (htr : v.truthy = true) :
    m.remember st key lt f opts = (v, st, [ClientCmd.get (m.resolveKey key)]) := by
  simp only [Memcached.remember, Memcached.get, hv, htr, if_true]

theorem remember_miss_eq (m : Memcached) (st : CacheState) (key : MKey)
    (lt : Option Int) (f : Unit → Value) (opts : Option StoreCommandOptions)
    (hmiss : truthyOpt (cacheGet st (m.resolveKey key)) = false) :
    m.remember st key lt f opts =
      (f (), cacheSet st (m.resolveKey key) (f ()),
       [ClientCmd.get (m.resolveKey key),
        ClientCmd.set (m.resolveKey key) (f ()) (m.lifetimeArg key lt)
          (rememberNoreply opts)]) := by
  cases hc : cacheGet st (m.resolveKey key) with
  | none =>
    simp only [Memcached.remember, Memcached.get, hc, Memcached.put,
      optNoreply_rememberStoreOptions, List.singleton_append]
  | some v =>
    have hv : v.truthy = false := by
      rw [hc] at hmiss
      simpa [truthyOpt] using hmiss
    simp only [Memcached.remember, Memcached.get, hc, hv, Bool.false_eq_true,
      if_false, Memcached.put, optNoreply_rememberStoreOptions,
      List.singleton_append]

theorem pull_truthy_hit_eq (m : Memcached) (st : CacheState) (key : MKey)
    (deflt : Option Value) (v : Value)
    (hv : cacheGet st (m.resolveKey key) = some v) (htr : v.truthy = true) :
    m.pull st key deflt =
      (some v, cacheDelete st (m.resolveKey key),
       [ClientCmd.get (m.resolveKey key),
        ClientCmd.delete (m.resolveKey key) false]) := by
  simp only [Memcached.pull, Memcached.get, Memcached.delete, hv, truthyOpt, htr,
    if_true, optNoreply, List.singleton_append]

theorem pull_falsy_hit_eq (m : Memcached) (st : CacheState) (key : MKey)
    (deflt : Option Value) (v : Value)
    (hv : cacheGet st (m.resolveKey key) = some v) (htr : v.truthy = false) :
    m.pull st key deflt = (some v, st, [ClientCmd.get (m.resolveKey key)]) := by
  simp only [Memcached.pull, Memcached.get, hv, truthyOpt, htr,
    Bool.false_eq_true, if_false]

theorem pull_absent_eq (m : Memcached) (st : CacheState) (key : MKey)
    (deflt : Option Value) (hv : cacheGet st (m.resolveKey key) = none) :
    m.pull st key deflt = (deflt, st, [ClientCmd.get (m.resolveKey key)]) := by
  simp only [Memcached.pull, Memcached.get, hv, truthyOpt, Bool.false_eq_true,
    if_false]

theorem lookup_eq_some_of_mem {β : Type} {l : List (String × β)} {k : String} {v : β}
    (nd : (l.map Prod.fst).Nodup) (hmem : (k, v) ∈ l) : l.lookup k = some v := by
  induction l with
  | nil => cases hmem
  | cons p t ih =>
    obtain ⟨a, b⟩ := p
    simp only [List.map_cons, List.nodup_cons] at nd
    rcases List.mem_cons.mp hmem with h | h
    · obtain ⟨rfl, rfl⟩ := Prod.ext_iff.mp h
      simp [List.lookup]
    · have hka : k ≠ a := by
        rintro rfl
        exact nd.1 (List.mem_map_of_mem Prod.fst h)
      simp only [List.lookup, beq_false_of_ne hka]
      exact ih nd.2 h

theorem lookup_mem_of_eq_some {β : Type} {l : List (String × β)} {k : String} {v : β}
    (h : l.lookup k = some v) : (k, v) ∈ l := by
  induction l with
  | nil => cases h
  | cons p t ih =>
    obtain ⟨a, b⟩ := p
    rw [show List.lookup k ((a, b) :: t) = match k == a with
      | true => some b
      | false => List.lookup k t from rfl] at h
    cases hka : k == a with
    | true =>
      rw [hka] at h
      obtain rfl : b = v := by simpa using h
      exact List.mem_cons.mpr (Or.inl (by simp [show k = a from by simpa using hka]))
    | false =>
      rw [hka] at h
      exact List.mem_cons.mpr (Or.inr (ih h))

theorem lookup_eq_none_iff {β : Type} {l : List (String × β)} {k : String} :
    l.lookup k = none ↔ k ∉ l.map Prod.fst := by
  induction l with
  | nil => simp
  | cons p t ih =>
    obtain ⟨a, b⟩ := p
    rw [show List.lookup k ((a, b) :: t) = match k == a with
      | true => some b
      | false => List.lookup k t from rfl]
    cases hka : k == a with
    | true =>
      simp only [List.map_cons, List.mem_cons]
      simp [show k = a from by simpa using hka]
    | false =>
      simp only [List.map_cons, List.mem_cons]
      simp [ih, show ¬ k = a from by simpa using hka]

theorem lookup_perm {β : Type} (k : String) {l l2 : List (String × β)} (h : l.Perm l2)
    (nd : (l.map Prod.fst).Nodup) : l.lookup k = l2.lookup k := by
  have nd2 : (l2.map Prod.fst).Nodup := ((h.map Prod.fst).nodup_iff).mp nd
  cases hl : l.lookup k with
  | some v =>
    exact (lookup_eq_some_of_mem nd2 (h.mem_iff.mp (lookup_mem_of_eq_some hl))).symm
  | none =>
    symm
    rw [lookup_eq_none_iff] at hl ⊢
    intro hk
    exact hl (((h.map Prod.fst).mem_iff).mpr hk)

/-! ## Claim theorems -/

/-- C10: for every `Now` instance and every number `n`, `addMinutes n` equals
`addSeconds (60*n)`, `addHours n` equals `addSeconds (3600*n)`, `addDays n`
equals `addSeconds (86400*n)`; each call advances the stored time by that
many seconds (the stored clock is in milliseconds) and returns the new time
in seconds since the Unix epoch. -/
theorem now_add_units (t : Now) (n : ℚ) :
    t.addMinutes n = t.addSeconds (60 * n) ∧
    t.addHours n = t.addSeconds (3600 * n) ∧
    t.addDays n = t.addSeconds (86400 * n) ∧
    (t.addSeconds n).2.nowMs = t.nowMs + n * 1000 ∧
    (t.addSeconds n).1 = (t.addSeconds n).2.nowMs / 1000 := by
  have h1 : n * 60 = 60 * n := by ring
  have h2 : n * 60 * 60 = 3600 * n := by ring
  have h3 : n * 24 * 60 * 60 = 86400 * n := by ring
  refine ⟨?_, ?_, ?_, rfl, rfl⟩
  · rw [Now.addMinutes, h1]
  · rw [Now.addHours, Now.addMinutes, h2]
  · rw [Now.addDays, Now.addHours, Now.addMinutes, h3]

/-- C5 (code bug): `flush()` without a delay argument does not omit the
delay operand; JS template interpolation turns the absent argument into the
literal token "undefined", so the command sent is "flush_all undefined"
rather than "flush_all". -/
theorem flush_no_delay_sends_undefined_token (m : Memcached) (noReply : Option Bool) :
    m.flush none noReply =
      [ClientCmd.raw "flush_all undefined" (noReply.getD false)] ∧
    "flush_all undefined" ≠ "flush_all" := by
  exact ⟨rfl, by decide⟩

/-- C8: `forever` stores with lifetime 0 regardless of the per-key lifetime
table, and `rememberForever` is extensionally equal to `remember` with
lifetime 0. -/
theorem forever_and_rememberForever (table table2 : List (String × Int))
    (scope : Option String) (st : CacheState) (key : MKey) (v : Value)
    (f : Unit → Value) (opts : Option StoreCommandOptions) :
    Memcached.forever ⟨table, scope⟩ st key v opts =
      (cacheSet st (Memcached.resolveKey ⟨table, scope⟩ key) v,
       [ClientCmd.set (Memcached.resolveKey ⟨table, scope⟩ key) v 0 (optNoreply opts)]) ∧
    Memcached.forever ⟨table, scope⟩ st key v opts =
      Memcached.forever ⟨table2, scope⟩ st key v opts ∧
    Memcached.rememberForever ⟨table, scope⟩ st key f opts =
      Memcached.remember ⟨table, scope⟩ st key (some 0) f opts :=
  ⟨rfl, rfl, rfl⟩

/-- C4 (counterexample): with scope "app" configured, `get` on key "k" sends
exactly the key "k" to the client — the caller's key unchanged, not composed
with the scope in any way. -/
theorem scope_not_composed_counterexample :
    (Memcached.get ⟨[], some "app"⟩ [] (MKey.str "k")).2 = [ClientCmd.get "k"] ∧
    "k" ≠ "app" ++ "k" ∧ "k" ≠ "app" ++ "/" ++ "k" ∧ "k" ≠ "app" ++ ":" ++ "k" := by
  exact ⟨rfl, by decide, by decide, by decide⟩

/-- C4 (amended): the scope given to the constructor is stored but never
used; every operation resolves the caller's key unchanged (arrays joined
with "/", other keys stringified) and behaves identically for every scope
value. -/
theorem scope_ignored_by_operations (table table2 : List (String × Int))
    (scope scope2 : Option String) (st : CacheState) (key : MKey) (v : Value)
    (delta lt : Option Int) (opts : Option StoreCommandOptions)
    (copts : Option CommonCommandOption) (f : Unit → Value) (deflt : Option Value)
    (s : String) (parts : List String) :
    Memcached.resolveKey ⟨table, scope⟩ key = Memcached.resolveKey ⟨table, scope2⟩ key ∧
    Memcached.resolveKey ⟨table, scope⟩ (MKey.str s) = s ∧
    Memcached.resolveKey ⟨table, scope⟩ (MKey.arr parts) = String.intercalate "/" parts ∧
    (Memcached.get ⟨table, scope⟩ st key).2 =
      [ClientCmd.get (Memcached.resolveKey ⟨table, scope⟩ key)] ∧
    Memcached.get ⟨table, scope⟩ st key = Memcached.get ⟨table, scope2⟩ st key ∧
    Memcached.put ⟨table, scope⟩ st key v lt opts =
      Memcached.put ⟨table, scope2⟩ st key v lt opts ∧
    Memcached.delete ⟨table, scope⟩ st key opts =
      Memcached.delete ⟨table, scope2⟩ st key opts ∧
    Memcached.add ⟨table, scope⟩ key v lt opts =
      Memcached.add ⟨table, scope2⟩ key v lt opts ∧
    Memcached.increment ⟨table, scope⟩ key delta lt opts =
      Memcached.increment ⟨table, scope2⟩ key delta lt opts ∧
    Memcached.decrement ⟨table, scope⟩ key delta lt opts =
      Memcached.decrement ⟨table, scope2⟩ key delta lt opts ∧
    Memcached.replace ⟨table, scope⟩ key v lt opts =
      Memcached.replace ⟨table, scope2⟩ key v lt opts ∧
    Memcached.append ⟨table, scope⟩ key v lt opts =
      Memcached.append ⟨table, scope2⟩ key v lt opts ∧
    Memcached.prepend ⟨table, scope⟩ key v lt opts =
      Memcached.prepend ⟨table, scope2⟩ key v lt opts ∧
    Memcached.remember ⟨table, scope⟩ st key lt f opts =
      Memcached.remember ⟨table, scope2⟩ st key lt f opts ∧
    Memcached.pull ⟨table, scope⟩ st key deflt =
      Memcached.pull ⟨table, scope2⟩ st key deflt ∧
    Memcached.forever ⟨table, scope⟩ st key v opts =
      Memcached.forever ⟨table, scope2⟩ st key v opts ∧
    Memcached.incLifetime ⟨table, scope⟩ key lt copts =
      Memcached.incLifetime ⟨table, scope2⟩ key lt copts ∧
    Memcached.flush ⟨table, scope⟩ (some s) (some true) =
      Memcached.flush ⟨table2, scope2⟩ (some s) (some true) ∧
    Memcached.gets ⟨table, scope⟩ parts st = Memcached.gets ⟨table2, scope2⟩ parts st :=
  ⟨rfl, rfl, rfl, rfl, rfl, rfl, rfl, rfl, rfl, rfl, rfl, rfl, rfl, rfl, rfl,
   rfl, rfl, rfl, rfl⟩

/-- C1 (counterexample): with the falsy value 0 stored under "k", the
retrieval yields a stored value, yet `remember` invokes the compute function,
stores its result, and returns the computed value instead of the stored one. -/
theorem remember_falsy_hit_recomputes_counterexample :
    (Memcached.remember ⟨[], none⟩ [("k", Value.num 0)] (MKey.str "k") none
        (fun _ => Value.num 7) none).1 = Value.num 7 ∧
    Value.num 7 ≠ Value.num 0 ∧
    (Memcached.remember ⟨[], none⟩ [("k", Value.num 0)] (MKey.str "k") none
        (fun _ => Value.num 7) none).2.2 =
      [ClientCmd.get "k", ClientCmd.set "k" (Value.num 7) 0 true] := by
  exact ⟨rfl, by decide, rfl⟩

/-- C1 (amended): `remember(k, t, f, opts)` first performs `get(k)`; if that
retrieval yields a truthy stored value it returns it without invoking `f`
and without storing anything; otherwise — the key absent or its stored value
falsy — it invokes `f`, stores the result under `k` with lifetime `t` via
`put`, and returns the computed value. -/
theorem remember_get_or_compute (m : Memcached) (st : CacheState) (key : MKey)
    (lt : Option Int) (f : Unit → Value) (opts : Option StoreCommandOptions) :
    (∀ v, cacheGet st (m.resolveKey key) = some v → v.truthy = true →
      m.remember st key lt f opts = (v, st, [ClientCmd.get (m.resolveKey key)])) ∧
    (truthyOpt (cacheGet st (m.resolveKey key)) = false →
      m.remember st key lt f opts =
        (f (), cacheSet st (m.resolveKey key) (f ()),
         [ClientCmd.get (m.resolveKey key),
          ClientCmd.set (m.resolveKey key) (f ()) (m.lifetimeArg key lt)
            (rememberNoreply opts)])) :=
  ⟨fun v hv htr => remember_truthy_hit_eq m st key lt f opts v hv htr,
   fun hmiss => remember_miss_eq m st key lt f opts hmiss⟩

/-- C1 (witness): a truthy hit returns the cached value untouched; a miss
computes, stores and returns the computed value. -/
theorem remember_get_or_compute_witness :
    Memcached.remember ⟨[], none⟩ [("k", Value.num 3)] (MKey.str "k") none
        (fun _ => Value.num 7) none =
      (Value.num 3, [("k", Value.num 3)], [ClientCmd.get "k"]) ∧
    Memcached.remember ⟨[], none⟩ [] (MKey.str "k") none
        (fun _ => Value.num 7) none =
      (Value.num 7, [("k", Value.num 7)],
       [ClientCmd.get "k", ClientCmd.set "k" (Value.num 7) 0 true]) := by
  constructor
  · exact (remember_get_or_compute ⟨[], none⟩ [("k", Value.num 3)] (MKey.str "k") none
      (fun _ => Value.num 7) none).1 (Value.num 3) (by decide) (by decide)
  · exact (remember_get_or_compute ⟨[], none⟩ [] (MKey.str "k") none
      (fun _ => Value.num 7) none).2 (by decide)

/-- C2 (counterexample): the key "k" is present (holding the falsy empty
string), yet `pull` performs no delete — the state keeps the entry and the
trace holds only the `get` — contradicting "if the key is present, deletes
k". -/
theorem pull_present_falsy_no_delete_counterexample :
    Memcached.pull ⟨[], none⟩ [("k", Value.str "")] (MKey.str "k")
        (some (Value.str "d")) =
      (some (Value.str ""), [("k", Value.str "")], [ClientCmd.get "k"]) := by
  exact rfl

/-- C2 (amended): `pull(k, d)` performs `get(k)`; if the retrieved value is
truthy it deletes `k` and returns the value; if the key is present with a
falsy value it performs no delete and still returns that value; if the key
is absent it performs no delete and returns `d`. -/
theorem pull_get_then_conditional_delete (m : Memcached) (st : CacheState)
    (key : MKey) (deflt : Option Value) :
    (∀ v, cacheGet st (m.resolveKey key) = some v → v.truthy = true →
      m.pull st key deflt =
        (some v, cacheDelete st (m.resolveKey key),
         [ClientCmd.get (m.resolveKey key),
          ClientCmd.delete (m.resolveKey key) false])) ∧
    (∀ v, cacheGet st (m.resolveKey key) = some v → v.truthy = false →
      m.pull st key deflt = (some v, st, [ClientCmd.get (m.resolveKey key)])) ∧
    (cacheGet st (m.resolveKey key) = none →
      m.pull st key deflt = (deflt, st, [ClientCmd.get (m.resolveKey key)])) :=
  ⟨fun v hv htr => pull_truthy_hit_eq m st key deflt v hv htr,
   fun v hv htr => pull_falsy_hit_eq m st key deflt v hv htr,
   fun hv => pull_absent_eq m st key deflt hv⟩

/-- C2 (witness): a truthy hit is deleted and returned; an absent key leaves
the state alone and yields the default. -/
theorem pull_get_then_conditional_delete_witness :
    Memcached.pull ⟨[], none⟩ [("k", Value.str "v")] (MKey.str "k")
        (some (Value.str "d")) =
      (some (Value.str "v"), [], [ClientCmd.get "k", ClientCmd.delete "k" false]) ∧
    Memcached.pull ⟨[], none⟩ [] (MKey.str "k") (some (Value.str "d")) =
      (some (Value.str "d"), [], [ClientCmd.get "k"]) := by
  constructor
  · exact (pull_get_then_conditional_delete ⟨[], none⟩ [("k", Value.str "v")]
      (MKey.str "k") (some (Value.str "d"))).1 (Value.str "v") (by decide) (by decide)
  · exact (pull_get_then_conditional_delete ⟨[], none⟩ [] (MKey.str "k")
      (some (Value.str "d"))).2.2 (by decide)

/-- C3 (counterexample): with the falsy value 0 stored under "k" and default
5 supplied, `pull` does not behave like a cache miss on the return side: it
returns the stored 0 (because `0 ?? def` is `0`), not the default. -/
theorem pull_falsy_returns_stored_counterexample :
    (Memcached.pull ⟨[], none⟩ [("k", Value.num 0)] (MKey.str "k")
        (some (Value.num 5))).1 = some (Value.num 0) ∧
    some (Value.num 0) ≠ some (Value.num 5) ∧
    (Value.num 0).truthy = false := by
  exact ⟨rfl, by decide, by decide⟩

/-- C3 (amended): a present-but-falsy value makes `remember` behave exactly
like a miss (it invokes the compute function and overwrites the entry), and
makes `pull` skip the delete; but `pull` still returns the stored falsy
value — the default is returned only when the key is absent. -/
theorem falsy_hit_remember_recomputes_pull_keeps (m : Memcached) (st : CacheState)
    (key : MKey) (lt : Option Int) (f : Unit → Value)
    (opts : Option StoreCommandOptions) (deflt : Option Value) (v : Value)
    (hv : cacheGet st (m.resolveKey key) = some v) (htr : v.truthy = false) :
    m.remember st key lt f opts =
      (f (), cacheSet st (m.resolveKey key) (f ()),
       [ClientCmd.get (m.resolveKey key),
        ClientCmd.set (m.resolveKey key) (f ()) (m.lifetimeArg key lt)
          (rememberNoreply opts)]) ∧
    m.pull st key deflt = (some v, st, [ClientCmd.get (m.resolveKey key)]) := by
  constructor
  · exact remember_miss_eq m st key lt f opts (by rw [hv]; simpa [truthyOpt] using htr)
  · exact pull_falsy_hit_eq m st key deflt v hv htr

/-- C3 (witness): the falsy stored 0 makes `remember` recompute and
overwrite, while `pull` leaves the entry in place and returns the stored 0. -/
theorem falsy_hit_remember_recomputes_pull_keeps_witness :
    Memcached.remember ⟨[], none⟩ [("k", Value.num 0)] (MKey.str "k") none
        (fun _ => Value.num 8) none =
      (Value.num 8, [("k", Value.num 8)],
       [ClientCmd.get "k", ClientCmd.set "k" (Value.num 8) 0 true]) ∧
    Memcached.pull ⟨[], none⟩ [("k", Value.num 0)] (MKey.str "k")
        (some (Value.num 5)) =
      (some (Value.num 0), [("k", Value.num 0)], [ClientCmd.get "k"]) :=
  falsy_hit_remember_recomputes_pull_keeps ⟨[], none⟩ [("k", Value.num 0)]
    (MKey.str "k") none (fun _ => Value.num 8) none (some (Value.num 5))
    (Value.num 0) (by decide) (by decide)

/-- C6: every store-like operation called without an explicit lifetime uses
the value the constructor's per-key lifetime table maps the resolved key to,
defaulting to 0 when the table has no entry (the `remember` conjunct assumes
a miss so that a store is issued at all). -/
theorem store_ops_use_table_default_lifetime (m : Memcached) (st : CacheState)
    (key : MKey) (v : Value) (delta : Option Int) (f : Unit → Value)
    (opts : Option StoreCommandOptions) (copts : Option CommonCommandOption)
    (hmiss : truthyOpt (cacheGet st (m.resolveKey key)) = false) :
    (m.put st key v none opts).2 =
      [ClientCmd.set (m.resolveKey key) v
        ((m.lifeTime.lookup (m.resolveKey key)).getD 0) (optNoreply opts)] ∧
    m.add key v none opts =
      [ClientCmd.add (m.resolveKey key) v
        ((m.lifeTime.lookup (m.resolveKey key)).getD 0) (optNoreply opts)] ∧
    m.increment key delta none opts =
      [ClientCmd.incr (m.resolveKey key) (delta.getD 1)
        ((m.lifeTime.lookup (m.resolveKey key)).getD 0) (optNoreply opts)] ∧
    m.decrement key delta none opts =
      [ClientCmd.decr (m.resolveKey key) (delta.getD 1)
        ((m.lifeTime.lookup (m.resolveKey key)).getD 0) (optNoreply opts)] ∧
    m.replace key v none opts =
      [ClientCmd.replace (m.resolveKey key) v
        ((m.lifeTime.lookup (m.resolveKey key)).getD 0) (optNoreply opts)] ∧
    m.append key v none opts =
      [ClientCmd.append (m.resolveKey key) v
        ((m.lifeTime.lookup (m.resolveKey key)).getD 0) (optNoreply opts)] ∧
    m.prepend key v none opts =
      [ClientCmd.prepend (m.resolveKey key) v
        ((m.lifeTime.lookup (m.resolveKey key)).getD 0) (optNoreply opts)] ∧
    (m.remember st key none f opts).2.2 =
      [ClientCmd.get (m.resolveKey key),
       ClientCmd.set (m.resolveKey key) (f ())
         ((m.lifeTime.lookup (m.resolveKey key)).getD 0) (rememberNoreply opts)] ∧
    m.incLifetime key none copts =
      [ClientCmd.touch (m.resolveKey key)
        ((m.lifeTime.lookup (m.resolveKey key)).getD 0) (commonNoreply copts)] := by
  refine ⟨rfl, rfl, rfl, rfl, rfl, rfl, rfl, ?_, rfl⟩
  rw [remember_miss_eq m st key none f opts hmiss]
  rfl

/-- C6 (witness): with the table mapping "a" to 99 and "b" unmapped, the
stores issued without an explicit lifetime carry 99 for "a" and 0 for "b". -/
theorem store_ops_use_table_default_lifetime_witness :
    (Memcached.put ⟨[("a", 99)], none⟩ [] (MKey.str "a") (Value.num 1) none
        none).2 = [ClientCmd.set "a" (Value.num 1) 99 false] ∧
    (Memcached.put ⟨[("a", 99)], none⟩ [] (MKey.str "b") (Value.num 1) none
        none).2 = [ClientCmd.set "b" (Value.num 1) 0 false] := by
  constructor
  · exact (store_ops_use_table_default_lifetime ⟨[("a", 99)], none⟩ []
      (MKey.str "a") (Value.num 1) none (fun _ => Value.num 1) none none
      (by decide)).1
  · exact (store_ops_use_table_default_lifetime ⟨[("a", 99)], none⟩ []
      (MKey.str "b") (Value.num 1) none (fun _ => Value.num 1) none none
      (by decide)).1

/-- C7: `gets ks` resolves to a list of the same length as `ks` whose i-th
element is the value the server's response holds for `ks[i]` (`none` when
absent), and the result is unchanged under any reordering of the server's
response blocks — results are matched to requests by returned key, not by
response position. -/
theorem gets_matches_by_key (m : Memcached) (keys : List String)
    (resp resp2 : List (String × Value)) (hperm : resp.Perm resp2)
    (hnd : (resp.map Prod.fst).Nodup) :
    (m.gets keys resp).1.length = keys.length ∧
    (∀ i : Nat, (m.gets keys resp).1[i]? =
      (keys[i]?).map (fun k => resp.lookup k)) ∧
    m.gets keys resp = m.gets keys resp2 := by
  refine ⟨by simp [Memcached.gets], fun i => by simp [Memcached.gets], ?_⟩
  unfold Memcached.gets
  have : (keys.map fun k => resp.lookup k) = keys.map fun k => resp2.lookup k :=
    List.map_congr_left fun k _ => lookup_perm k hperm hnd
  rw [this]

/-- C7 (witness): requesting ["a", "b", "c"] against a response holding only
"c" and "a" (in that order) yields the same positional results as against
the reordered response. -/
theorem gets_matches_by_key_witness :
    Memcached.gets ⟨[], none⟩ ["a", "b", "c"]
        [("c", Value.num 3), ("a", Value.num 1)] =
      Memcached.gets ⟨[], none⟩ ["a", "b", "c"]
        [("a", Value.num 1), ("c", Value.num 3)] :=
  (gets_matches_by_key ⟨[], none⟩ ["a", "b", "c"]
    [("c", Value.num 3), ("a", Value.num 1)]
    [("a", Value.num 1), ("c", Value.num 3)] (by decide) (by decide)).2.2

/-- C9: when `remember` misses and stores the computed value, the store's
`noreply` flag is `true` unless the caller's options carry an explicit
`noreply`, and `remember` returns the computed value itself, not an outcome
of the store. -/
theorem remember_store_noreply_default (m : Memcached) (st : CacheState)
    (key : MKey) (lt : Option Int) (f : Unit → Value)
    (opts : Option StoreCommandOptions)
    (hmiss : truthyOpt (cacheGet st (m.resolveKey key)) = false) :
    (m.remember st key lt f opts).1 = f () ∧
    (m.remember st key lt f opts).2.2 =
      [ClientCmd.get (m.resolveKey key),
       ClientCmd.set (m.resolveKey key) (f ()) (m.lifetimeArg key lt)
         (rememberNoreply opts)] ∧
    (opts.bind (fun o => o.noreply) = none → rememberNoreply opts = true) ∧
    (∀ b, opts.bind (fun o => o.noreply) = some b → rememberNoreply opts = b) := by
  refine ⟨?_, ?_, ?_, ?_⟩
  · rw [remember_miss_eq m st key lt f opts hmiss]
  · rw [remember_miss_eq m st key lt f opts hmiss]
  · intro h
    cases opts with
    | none => rfl
    | some o =>
      have h2 : o.noreply = none := h
      simp [rememberNoreply, h2]
  · intro b h
    cases opts with
    | none => cases h
    | some o =>
      have h2 : o.noreply = some b := h
      simp [rememberNoreply, h2]

/-- C9 (witness): on a miss with no caller options the issued store carries
`noreply = true`, and with an explicit `noreply: false` it carries `false`. -/
theorem remember_store_noreply_default_witness :
    (Memcached.remember ⟨[], none⟩ [] (MKey.str "k") none
        (fun _ => Value.num 7) none).2.2 =
      [ClientCmd.get "k", ClientCmd.set "k" (Value.num 7) 0 true] ∧
    (Memcached.remember ⟨[], none⟩ [] (MKey.str "k") none
        (fun _ => Value.num 7) (some ⟨some false, none, none⟩)).2.2 =
      [ClientCmd.get "k", ClientCmd.set "k" (Value.num 7) 0 false] := by
  constructor
  · exact (remember_store_noreply_default ⟨[], none⟩ [] (MKey.str "k") none
      (fun _ => Value.num 7) none (by decide)).2.1
  · exact (remember_store_noreply_default ⟨[], none⟩ [] (MKey.str "k") none
      (fun _ => Value.num 7) (some ⟨some false, none, none⟩) (by decide)).2.1
